import Mathlib

/-!
Shallow embedding of the ICT terminal's technical-analysis core
(`src/services/technicalAnalysis.ts`, extended 4-factor variant, and the
base 3-factor variant) together with proofs about its behaviour.

Prices, configuration numbers and volumes are modelled as rationals (ℚ);
timestamps as integers; array indices as naturals.  Out-of-range array
access never occurs on the indices the loops visit, so a total getter with
a junk default is observationally faithful.
-/

/-- One OHLCV bar (`Candle` in `types.ts`).  The `open` field is named
`opn` because `open` is a Lean keyword. -/
structure Candle where
  time : Int
  opn : ℚ
  high : ℚ
  low : ℚ
  close : ℚ
  volume : ℚ
  deriving DecidableEq, Repr

/-- Zone / event direction (`'bullish' | 'bearish'`). -/
inductive Direction where
  | bullish
  | bearish
  deriving DecidableEq, Repr

/-- Fair value gap record (`FVG` in `types.ts`). -/
structure FVG where
  dir : Direction
  top : ℚ
  bottom : ℚ
  index : Nat
  startTime : Int
  isValid : Bool
  deriving DecidableEq, Repr

/-- Order block record (`OrderBlock` in `types.ts`). -/
structure OrderBlock where
  dir : Direction
  top : ℚ
  bottom : ℚ
  index : Nat
  startTime : Int
  isValid : Bool
  deriving DecidableEq, Repr

/-- Structure-event kind (`'BOS' | 'ChoCh'`); only `BOS` is ever produced. -/
inductive StructureKind where
  | BOS
  | ChoCh
  deriving DecidableEq, Repr

/-- Market-structure event (`MarketStructure` in `types.ts`). -/
structure MarketStructure where
  kind : StructureKind
  direction : Direction
  price : ℚ
  index : Nat
  time : Int
  deriving DecidableEq, Repr

/-- Trading signal (`'BUY' | 'SELL' | 'NEUTRAL'`). -/
inductive Signal where
  | BUY
  | SELL
  | NEUTRAL
  deriving DecidableEq, Repr

/-- Per-direction confluence booleans (`ConfluenceDetails` in `types.ts`). -/
structure ConfluenceDetails where
  ob : Bool
  fvg : Bool
  bos : Bool
  sweep : Bool
  deriving DecidableEq, Repr

/-- Result of the extended engine (`AnalysisResult` in `types.ts`);
optional trade-plan numbers are `Option ℚ`. -/
structure AnalysisResult where
  bullScore : Nat
  bearScore : Nat
  confluencesBull : ConfluenceDetails
  confluencesBear : ConfluenceDetails
  orderBlocks : List OrderBlock
  fvgs : List FVG
  structureEvents : List MarketStructure
  signal : Signal
  entryPrice : Option ℚ
  slPrice : Option ℚ
  tpPrice : Option ℚ
  rrRatio : Option ℚ
  pnlEstimate : Option ℚ
  deriving DecidableEq, Repr

/-- Result of the base engine (`AnalysisResult` in the base variant's
`types.ts`: no confluence detail, no trade plan). -/
structure AnalysisResultBase where
  bullScore : Nat
  bearScore : Nat
  orderBlocks : List OrderBlock
  fvgs : List FVG
  structureEvents : List MarketStructure
  signal : Signal
  deriving DecidableEq, Repr

/-- Engine configuration (`Config` in `types.ts`).  `obLookback` is carried
but unused by the analysis code, exactly as in the source. -/
structure Config where
  swingLength : Nat
  obLookback : ℚ
  minConfluence : ℚ
  rrRatio : ℚ
  slBuffer : ℚ
  deriving DecidableEq, Repr

/-- Total array access `candles[i]` with a junk default; the loops below
only ever use it at indices the source accesses in bounds. -/
def getC (candles : List Candle) (i : Nat) : Candle :=
  candles.getD i ⟨0, 0, 0, 0, 0, 0⟩

/-- `Math.abs`. -/
def jsAbs (q : ℚ) : ℚ := if q < 0 then -q else q

/-- Bullish FVG condition at a bar triple `(c2, c1, c0) = (bar[i-2], bar[i-1], bar[i])`:
`c2.high < c0.low && c1.close > c1.open && (c0.low - c2.high) > (c1.high - c1.low) * 0.3`. -/
def bullFVGfire (c2 c1 c0 : Candle) : Bool :=
  decide (c2.high < c0.low) && decide (c1.close > c1.opn) &&
    decide (c0.low - c2.high > (c1.high - c1.low) * (3 / 10))

/-- Bearish FVG condition at a bar triple:
`c2.low > c0.high && c1.close < c1.open && (c2.low - c0.high) > (c1.high - c1.low) * 0.3`. -/
def bearFVGfire (c2 c1 c0 : Candle) : Bool :=
  decide (c2.low > c0.high) && decide (c1.close < c1.opn) &&
    decide (c2.low - c0.high > (c1.high - c1.low) * (3 / 10))

/-- FVG zones pushed at loop index `i` (bullish first, then bearish). -/
def fvgAt (candles : List Candle) (i : Nat) : List FVG :=
  let c0 := getC candles i
  let c1 := getC candles (i - 1)
  let c2 := getC candles (i - 2)
  (if bullFVGfire c2 c1 c0 then
      [{ dir := Direction.bullish, top := c0.low, bottom := c2.high,
         index := i - 1, startTime := c1.time, isValid := true }]
    else []) ++
  (if bearFVGfire c2 c1 c0 then
      [{ dir := Direction.bearish, top := c2.low, bottom := c0.high,
         index := i - 1, startTime := c1.time, isValid := true }]
    else [])

/-- FVG detection pass: `for (let i = 2; i < candles.length; i++)`. -/
def detectFVGs (candles : List Candle) : List FVG :=
  (List.range' 2 (candles.length - 2)).flatMap (fvgAt candles)

/-- Bullish order-block condition at a bar pair `(c1, c0) = (bar[i-1], bar[i])`:
`c0.close > c0.open && c1.close < c1.open && |c0.close - c0.open| > (c1.high - c1.low) * 1.2`. -/
def bullOBfire (c1 c0 : Candle) : Bool :=
  decide (c0.close > c0.opn) && decide (c1.close < c1.opn) &&
    decide (jsAbs (c0.close - c0.opn) > (c1.high - c1.low) * (12 / 10))

/-- Bearish order-block condition at a bar pair. -/
def bearOBfire (c1 c0 : Candle) : Bool :=
  decide (c0.close < c0.opn) && decide (c1.close > c1.opn) &&
    decide (jsAbs (c0.close - c0.opn) > (c1.high - c1.low) * (12 / 10))

/-- Order blocks pushed at loop index `i` (bullish first, then bearish). -/
def obAt (candles : List Candle) (i : Nat) : List OrderBlock :=
  let c0 := getC candles i
  let c1 := getC candles (i - 1)
  (if bullOBfire c1 c0 then
      [{ dir := Direction.bullish, top := c1.high, bottom := c1.low,
         index := i - 1, startTime := c1.time, isValid := true }]
    else []) ++
  (if bearOBfire c1 c0 then
      [{ dir := Direction.bearish, top := c1.high, bottom := c1.low,
         index := i - 1, startTime := c1.time, isValid := true }]
    else [])

/-- Order-block detection pass: `for (let i = 1; i < candles.length; i++)`. -/
def detectOBs (candles : List Candle) : List OrderBlock :=
  (List.range' 1 (candles.length - 1)).flatMap (obAt candles)

/-- Pivot kind selector (`'high' | 'low'`). -/
inductive PivotKind where
  | hi
  | lo
  deriving DecidableEq, Repr

/-- A swing pivot: `{ val, idx, time }`. -/
structure Pivot where
  val : ℚ
  idx : Nat
  time : Int
  deriving DecidableEq, Repr

/-- The inner `for (j = 1; j <= len; j++)` check: index `i` survives with
`isPivot` still true iff every windowed comparison is strict. -/
def isPivotAt (k : PivotKind) (candles : List Candle) (len i : Nat) : Bool :=
  (List.range' 1 len).all fun j =>
    match k with
    | PivotKind.hi =>
        decide ((getC candles (i - j)).high < (getC candles i).high) &&
          decide ((getC candles (i + j)).high < (getC candles i).high)
    | PivotKind.lo =>
        decide ((getC candles i).low < (getC candles (i - j)).low) &&
          decide ((getC candles i).low < (getC candles (i + j)).low)

/-- The pivot record pushed for a surviving index `i`. -/
def mkPivot (k : PivotKind) (candles : List Candle) (i : Nat) : Pivot :=
  { val := match k with
      | PivotKind.hi => (getC candles i).high
      | PivotKind.lo => (getC candles i).low,
    idx := i, time := (getC candles i).time }

/-- `findPivots`: scan `for (let i = len; i < candles.length - len; i++)`,
pushing a pivot for each index passing the strict windowed test. -/
def findPivots (k : PivotKind) (candles : List Candle) (len : Nat) : List Pivot :=
  (List.range' len (candles.length - 2 * len)).filterMap fun i =>
    if isPivotAt k candles len i then some (mkPivot k candles i) else none

/-- Bullish liquidity-sweep flag: the last candle's low undercuts the most
recent low pivot while its close recovers above it. -/
def bullSweepFlag (lowPivots : List Pivot) (lastCandle : Candle) : Bool :=
  match lowPivots.getLast? with
  | some p => decide (lastCandle.low < p.val) && decide (lastCandle.close > p.val)
  | none => false

/-- Bearish liquidity-sweep flag: symmetric on highs. -/
def bearSweepFlag (highPivots : List Pivot) (lastCandle : Candle) : Bool :=
  match highPivots.getLast? with
  | some p => decide (lastCandle.high > p.val) && decide (lastCandle.close < p.val)
  | none => false

/-- BOS events: compare the two most recent pivots of each kind; bullish
event pushed first, then bearish, exactly as in the source. -/
def bosEvents (highPivots lowPivots : List Pivot) : List MarketStructure :=
  (if 2 ≤ highPivots.length then
      let last := highPivots.getD (highPivots.length - 1) ⟨0, 0, 0⟩
      let prev := highPivots.getD (highPivots.length - 2) ⟨0, 0, 0⟩
      if prev.val < last.val then
        [{ kind := StructureKind.BOS, direction := Direction.bullish,
           price := last.val, index := last.idx, time := last.time }]
      else []
    else []) ++
  (if 2 ≤ lowPivots.length then
      let last := lowPivots.getD (lowPivots.length - 1) ⟨0, 0, 0⟩
      let prev := lowPivots.getD (lowPivots.length - 2) ⟨0, 0, 0⟩
      if last.val < prev.val then
        [{ kind := StructureKind.BOS, direction := Direction.bearish,
           price := last.val, index := last.idx, time := last.time }]
      else []
    else [])

/-- Occupancy predicate for a bullish order block against the last candle. -/
def bullOBpred (lastCandle : Candle) (ob : OrderBlock) : Bool :=
  decide (ob.dir = Direction.bullish) && decide (lastCandle.low ≤ ob.top) &&
    decide (lastCandle.close ≥ ob.bottom)

/-- Occupancy predicate for a bearish order block against the last candle. -/
def bearOBpred (lastCandle : Candle) (ob : OrderBlock) : Bool :=
  decide (ob.dir = Direction.bearish) && decide (lastCandle.high ≥ ob.bottom) &&
    decide (lastCandle.close ≤ ob.top)

/-- Occupancy predicate for a bullish FVG against the last candle. -/
def bullFVGpred (lastCandle : Candle) (f : FVG) : Bool :=
  decide (f.dir = Direction.bullish) && decide (lastCandle.low ≤ f.top) &&
    decide (lastCandle.close ≥ f.bottom)

/-- Occupancy predicate for a bearish FVG against the last candle. -/
def bearFVGpred (lastCandle : Candle) (f : FVG) : Bool :=
  decide (f.dir = Direction.bearish) && decide (lastCandle.high ≥ f.bottom) &&
    decide (lastCandle.close ≤ f.top)

/-- `candles[candles.length - 1]` (junk when the sequence is empty; the
source only dereferences it under guards that imply non-emptiness). -/
def lastCandleOf (candles : List Candle) : Candle :=
  getC candles (candles.length - 1)

def highPivotsOf (candles : List Candle) (config : Config) : List Pivot :=
  findPivots PivotKind.hi candles config.swingLength

def lowPivotsOf (candles : List Candle) (config : Config) : List Pivot :=
  findPivots PivotKind.lo candles config.swingLength

def structureEventsOf (candles : List Candle) (config : Config) : List MarketStructure :=
  bosEvents (highPivotsOf candles config) (lowPivotsOf candles config)

def bullSweepOf (candles : List Candle) (config : Config) : Bool :=
  bullSweepFlag (lowPivotsOf candles config) (lastCandleOf candles)

def bearSweepOf (candles : List Candle) (config : Config) : Bool :=
  bearSweepFlag (highPivotsOf candles config) (lastCandleOf candles)

/-- `orderBlocks.find(...)` for the bullish occupancy test. -/
def currentBullOBOf (candles : List Candle) : Option OrderBlock :=
  (detectOBs candles).find? (bullOBpred (lastCandleOf candles))

/-- `orderBlocks.find(...)` for the bearish occupancy test. -/
def currentBearOBOf (candles : List Candle) : Option OrderBlock :=
  (detectOBs candles).find? (bearOBpred (lastCandleOf candles))

def inBullOBOf (candles : List Candle) : Bool := (currentBullOBOf candles).isSome

def inBearOBOf (candles : List Candle) : Bool := (currentBearOBOf candles).isSome

def inBullFVGOf (candles : List Candle) : Bool :=
  (detectFVGs candles).any (bullFVGpred (lastCandleOf candles))

def inBearFVGOf (candles : List Candle) : Bool :=
  (detectFVGs candles).any (bearFVGpred (lastCandleOf candles))

def bullBOSOf (candles : List Candle) (config : Config) : Bool :=
  (structureEventsOf candles config).any fun s => decide (s.direction = Direction.bullish)

def bearBOSOf (candles : List Candle) (config : Config) : Bool :=
  (structureEventsOf candles config).any fun s => decide (s.direction = Direction.bearish)

/-- Extended bull score: count of the four confluence booleans. -/
def bullScoreOf (candles : List Candle) (config : Config) : Nat :=
  (inBullOBOf candles).toNat + (inBullFVGOf candles).toNat +
    (bullBOSOf candles config).toNat + (bullSweepOf candles config).toNat

/-- Extended bear score: count of the four confluence booleans. -/
def bearScoreOf (candles : List Candle) (config : Config) : Nat :=
  (inBearOBOf candles).toNat + (inBearFVGOf candles).toNat +
    (bearBOSOf candles config).toNat + (bearSweepOf candles config).toNat

/-- Stop reference for a BUY: the occupied bullish block's bottom, else the
last candle's low. -/
def buyBaseSLOf (candles : List Candle) : ℚ :=
  match currentBullOBOf candles with
  | some ob => ob.bottom
  | none => (lastCandleOf candles).low

/-- Stop reference for a SELL: the occupied bearish block's top, else the
last candle's high. -/
def sellBaseSLOf (candles : List Candle) : ℚ :=
  match currentBearOBOf candles with
  | some ob => ob.top
  | none => (lastCandleOf candles).high

def buySLOf (candles : List Candle) (config : Config) : ℚ :=
  buyBaseSLOf candles * (1 - config.slBuffer / 100)

def sellSLOf (candles : List Candle) (config : Config) : ℚ :=
  sellBaseSLOf candles * (1 + config.slBuffer / 100)

def buyTPOf (candles : List Candle) (config : Config) : ℚ :=
  (lastCandleOf candles).close +
    jsAbs ((lastCandleOf candles).close - buySLOf candles config) * config.rrRatio

def sellTPOf (candles : List Candle) (config : Config) : ℚ :=
  (lastCandleOf candles).close -
    jsAbs (sellSLOf candles config - (lastCandleOf candles).close) * config.rrRatio

/-- The extended (4-factor, trade-planning) engine
(`analyzePriceData` in `src/services/technicalAnalysis.ts`). -/
def analyzePriceData (candles : List Candle) (config : Config) : AnalysisResult :=
  let base : AnalysisResult :=
    { bullScore := bullScoreOf candles config
      bearScore := bearScoreOf candles config
      confluencesBull :=
        ⟨inBullOBOf candles, inBullFVGOf candles, bullBOSOf candles config,
          bullSweepOf candles config⟩
      confluencesBear :=
        ⟨inBearOBOf candles, inBearFVGOf candles, bearBOSOf candles config,
          bearSweepOf candles config⟩
      orderBlocks := detectOBs candles
      fvgs := detectFVGs candles
      structureEvents := structureEventsOf candles config
      signal := Signal.NEUTRAL
      entryPrice := none, slPrice := none, tpPrice := none
      rrRatio := none, pnlEstimate := none }
  if (bullScoreOf candles config : ℚ) ≥ config.minConfluence then
    let entry := (lastCandleOf candles).close
    let tp := buyTPOf candles config
    { base with
        signal := Signal.BUY
        entryPrice := some entry
        slPrice := some (buySLOf candles config)
        tpPrice := some tp
        rrRatio := some config.rrRatio
        pnlEstimate := some ((tp - entry) / entry * 100) }
  else if (bearScoreOf candles config : ℚ) ≥ config.minConfluence then
    let entry := (lastCandleOf candles).close
    let tp := sellTPOf candles config
    { base with
        signal := Signal.SELL
        entryPrice := some entry
        slPrice := some (sellSLOf candles config)
        tpPrice := some tp
        rrRatio := some config.rrRatio
        pnlEstimate := some ((entry - tp) / entry * 100) }
  else base

/-- Base-variant occupancy: `orderBlocks.some(...)` instead of `find`. -/
def inBullOBBaseOf (candles : List Candle) : Bool :=
  (detectOBs candles).any (bullOBpred (lastCandleOf candles))

def inBearOBBaseOf (candles : List Candle) : Bool :=
  (detectOBs candles).any (bearOBpred (lastCandleOf candles))

/-- Base bull score: the three-factor sum `ob + fvg + bos`. -/
def bullScoreBaseOf (candles : List Candle) (config : Config) : Nat :=
  (inBullOBBaseOf candles).toNat + (inBullFVGOf candles).toNat +
    (bullBOSOf candles config).toNat

/-- Base bear score: the three-factor sum. -/
def bearScoreBaseOf (candles : List Candle) (config : Config) : Nat :=
  (inBearOBBaseOf candles).toNat + (inBearFVGOf candles).toNat +
    (bearBOSOf candles config).toNat

/-- The base (3-factor, no trade plan) engine
(`analyzePriceData` in the base variant source file). -/
def analyzePriceDataBase (candles : List Candle) (config : Config) : AnalysisResultBase :=
  { bullScore := bullScoreBaseOf candles config
    bearScore := bearScoreBaseOf candles config
    orderBlocks := detectOBs candles
    fvgs := detectFVGs candles
    structureEvents := structureEventsOf candles config
    signal :=
      if (bullScoreBaseOf candles config : ℚ) ≥ config.minConfluence then Signal.BUY
      else if (bearScoreBaseOf candles config : ℚ) ≥ config.minConfluence then Signal.SELL
      else Signal.NEUTRAL }

/-! ### Well-formedness predicates and concrete example inputs -/

/-- Bars whose prices are positive and ordered `0 < low ≤ close ≤ high`. -/
def WellFormedPos (candles : List Candle) : Prop :=
  ∀ c ∈ candles, 0 < c.low ∧ c.low ≤ c.close ∧ c.close ≤ c.high

/-- Bars satisfying `high ≥ low`. -/
def WellFormedHL (candles : List Candle) : Prop :=
  ∀ c ∈ candles, c.low ≤ c.high

/-- The bullish and the bearish imbalance check never both fire at the same
loop index of any bar sequence. -/
def noDoubleFVG : Prop :=
  ∀ (candles : List Candle) (i : Nat),
    ¬ (bullFVGfire (getC candles (i - 2)) (getC candles (i - 1)) (getC candles i) = true ∧
        bearFVGfire (getC candles (i - 2)) (getC candles (i - 1)) (getC candles i) = true)

/-- Five doji-free-of-zones bars whose highs carry rising swing highs
(50 then 70) and whose lows carry falling swing lows (3 then 2): both a
bullish and a bearish BOS fire, so bull and bear scores are both 1. -/
def tieCandles : List Candle :=
  [⟨0, 15, 20, 10, 15, 0⟩,
   ⟨1, 15, 50, 3, 15, 0⟩,
   ⟨2, 15, 20, 10, 15, 0⟩,
   ⟨3, 15, 70, 2, 15, 0⟩,
   ⟨4, 15, 20, 10, 15, 0⟩]

/-- swingLength 1, obLookback 0, minConfluence 1, rrRatio 2, slBuffer 0. -/
def tieConfig : Config := ⟨1, 0, 1, 2, 0⟩

/-- Five well-formed doji bars producing exactly one bullish BOS and no
zones; the last bar has `low = close`, so with a zero stop-loss buffer the
BUY plan degenerates to `stop = entry = target`. -/
def planCandles : List Candle :=
  [⟨0, 1, 1, 1, 1, 0⟩,
   ⟨1, 1, 5, 1, 1, 0⟩,
   ⟨2, 1, 1, 1, 1, 0⟩,
   ⟨3, 1, 7, 1, 1, 0⟩,
   ⟨4, 2, 2, 2, 2, 0⟩]

/-- Like `tieConfig` but with a strictly positive stop-loss buffer (5%). -/
def posBufConfig : Config := ⟨1, 0, 1, 2, 5⟩

/-- Three bars forming one bullish imbalance zone (gap from high 1 up to
low 5 across a bullish middle bar). -/
def fvgCandles : List Candle :=
  [⟨0, 0, 1, 0, 0, 0⟩, ⟨1, 0, 4, 0, 2, 0⟩, ⟨2, 5, 6, 5, 6, 0⟩]

/-! ### Basic helper lemmas -/

lemma getC_mem {candles : List Candle} {i : Nat} (h : i < candles.length) :
    getC candles i ∈ candles := by
  rw [getC, List.getD_eq_getElem _ _ h]
  exact List.getElem_mem h

lemma mem_if_singleton {α : Type} {b : Bool} {x y : α} :
    y ∈ (if b then [x] else ([] : List α)) ↔ b = true ∧ y = x := by
  cases b <;> simp

lemma any_eq_find?_isSome {α : Type} (p : α → Bool) (l : List α) :
    l.any p = (l.find? p).isSome := by
  cases h1 : l.any p <;> cases h2 : (l.find? p).isSome <;> try rfl
  · rw [List.find?_isSome] at h2
    rw [← List.any_eq_true, h1] at h2
    exact absurd h2 (Bool.false_ne_true)
  · rw [List.any_eq_true] at h1
    exact absurd (List.find?_isSome.mpr h1) (by rw [h2]; exact Bool.false_ne_true)

/-! ### Projection lemmas for the extended engine -/

lemma apd_bullScore (candles : List Candle) (config : Config) :
    (analyzePriceData candles config).bullScore = bullScoreOf candles config := by
  simp only [analyzePriceData]
  split
  · rfl
  · split <;> rfl

lemma apd_bearScore (candles : List Candle) (config : Config) :
    (analyzePriceData candles config).bearScore = bearScoreOf candles config := by
  simp only [analyzePriceData]
  split
  · rfl
  · split <;> rfl

lemma apd_orderBlocks (candles : List Candle) (config : Config) :
    (analyzePriceData candles config).orderBlocks = detectOBs candles := by
  simp only [analyzePriceData]
  split
  · rfl
  · split <;> rfl

lemma apd_fvgs (candles : List Candle) (config : Config) :
    (analyzePriceData candles config).fvgs = detectFVGs candles := by
  simp only [analyzePriceData]
  split
  · rfl
  · split <;> rfl

lemma apd_structureEvents (candles : List Candle) (config : Config) :
    (analyzePriceData candles config).structureEvents = structureEventsOf candles config := by
  simp only [analyzePriceData]
  split
  · rfl
  · split <;> rfl

lemma apd_signal (candles : List Candle) (config : Config) :
    (analyzePriceData candles config).signal =
      (if (bullScoreOf candles config : ℚ) ≥ config.minConfluence then Signal.BUY
       else if (bearScoreOf candles config : ℚ) ≥ config.minConfluence then Signal.SELL
       else Signal.NEUTRAL) := by
  simp only [analyzePriceData]
  split
  · rename_i h
    simp [h]
  · rename_i h
    split <;> rename_i h2 <;> simp [h, h2]

lemma apd_buy_fields (candles : List Candle) (config : Config)
    (h : (bullScoreOf candles config : ℚ) ≥ config.minConfluence) :
    (analyzePriceData candles config).entryPrice = some (lastCandleOf candles).close ∧
      (analyzePriceData candles config).slPrice = some (buySLOf candles config) ∧
      (analyzePriceData candles config).tpPrice = some (buyTPOf candles config) ∧
      (analyzePriceData candles config).pnlEstimate =
        some ((buyTPOf candles config - (lastCandleOf candles).close) /
          (lastCandleOf candles).close * 100) := by
  simp only [analyzePriceData, if_pos h]
  all_goals simp [buySLOf, buyTPOf]

lemma apd_sell_fields (candles : List Candle) (config : Config)
    (h1 : ¬ (bullScoreOf candles config : ℚ) ≥ config.minConfluence)
    (h2 : (bearScoreOf candles config : ℚ) ≥ config.minConfluence) :
    (analyzePriceData candles config).entryPrice = some (lastCandleOf candles).close ∧
      (analyzePriceData candles config).slPrice = some (sellSLOf candles config) ∧
      (analyzePriceData candles config).tpPrice = some (sellTPOf candles config) ∧
      (analyzePriceData candles config).pnlEstimate =
        some (((lastCandleOf candles).close - sellTPOf candles config) /
          (lastCandleOf candles).close * 100) := by
  simp only [analyzePriceData, if_neg h1, if_pos h2]
  all_goals simp [sellSLOf, sellTPOf]

lemma apd_neutral_fields (candles : List Candle) (config : Config)
    (h1 : ¬ (bullScoreOf candles config : ℚ) ≥ config.minConfluence)
    (h2 : ¬ (bearScoreOf candles config : ℚ) ≥ config.minConfluence) :
    (analyzePriceData candles config).signal = Signal.NEUTRAL ∧
      (analyzePriceData candles config).entryPrice = none ∧
      (analyzePriceData candles config).slPrice = none ∧
      (analyzePriceData candles config).tpPrice = none ∧
      (analyzePriceData candles config).rrRatio = none ∧
      (analyzePriceData candles config).pnlEstimate = none := by
  simp only [analyzePriceData, if_neg h1, if_neg h2]
  all_goals simp

lemma signal_BUY_iff (candles : List Candle) (config : Config) :
    (analyzePriceData candles config).signal = Signal.BUY ↔
      (bullScoreOf candles config : ℚ) ≥ config.minConfluence := by
  rw [apd_signal]
  split
  · rename_i h
    simp [h]
  · rename_i h
    split <;> simp [h]

lemma signal_SELL_iff (candles : List Candle) (config : Config) :
    (analyzePriceData candles config).signal = Signal.SELL ↔
      ¬ (bullScoreOf candles config : ℚ) ≥ config.minConfluence ∧
        (bearScoreOf candles config : ℚ) ≥ config.minConfluence := by
  rw [apd_signal]
  split
  · rename_i h
    simp [h]
  · rename_i h
    split <;> rename_i h2 <;> simp [h, h2]

/-! ### Membership characterisations for the detectors -/

lemma mem_detectFVGs {candles : List Candle} {f : FVG} :
    f ∈ detectFVGs candles ↔
      ∃ i, 2 ≤ i ∧ i < candles.length ∧ f ∈ fvgAt candles i := by
  simp only [detectFVGs, List.mem_flatMap, List.mem_range'_1]
  constructor
  · rintro ⟨i, ⟨h1, h2⟩, h3⟩
    exact ⟨i, h1, by omega, h3⟩
  · rintro ⟨i, h1, h2, h3⟩
    exact ⟨i, ⟨h1, by omega⟩, h3⟩

lemma mem_detectOBs {candles : List Candle} {ob : OrderBlock} :
    ob ∈ detectOBs candles ↔
      ∃ i, 1 ≤ i ∧ i < candles.length ∧ ob ∈ obAt candles i := by
  simp only [detectOBs, List.mem_flatMap, List.mem_range'_1]
  constructor
  · rintro ⟨i, ⟨h1, h2⟩, h3⟩
    exact ⟨i, h1, by omega, h3⟩
  · rintro ⟨i, h1, h2, h3⟩
    exact ⟨i, ⟨h1, by omega⟩, h3⟩

lemma mem_fvgAt {candles : List Candle} {i : Nat} {f : FVG} :
    f ∈ fvgAt candles i ↔
      (bullFVGfire (getC candles (i - 2)) (getC candles (i - 1)) (getC candles i) = true ∧
        f = { dir := Direction.bullish, top := (getC candles i).low,
              bottom := (getC candles (i - 2)).high, index := i - 1,
              startTime := (getC candles (i - 1)).time, isValid := true }) ∨
      (bearFVGfire (getC candles (i - 2)) (getC candles (i - 1)) (getC candles i) = true ∧
        f = { dir := Direction.bearish, top := (getC candles (i - 2)).low,
              bottom := (getC candles i).high, index := i - 1,
              startTime := (getC candles (i - 1)).time, isValid := true }) := by
  simp only [fvgAt, List.mem_append, mem_if_singleton]

lemma mem_obAt {candles : List Candle} {i : Nat} {ob : OrderBlock} :
    ob ∈ obAt candles i ↔
      (bullOBfire (getC candles (i - 1)) (getC candles i) = true ∧
        ob = { dir := Direction.bullish, top := (getC candles (i - 1)).high,
               bottom := (getC candles (i - 1)).low, index := i - 1,
               startTime := (getC candles (i - 1)).time, isValid := true }) ∨
      (bearOBfire (getC candles (i - 1)) (getC candles i) = true ∧
        ob = { dir := Direction.bearish, top := (getC candles (i - 1)).high,
               bottom := (getC candles (i - 1)).low, index := i - 1,
               startTime := (getC candles (i - 1)).time, isValid := true }) := by
  simp only [obAt, List.mem_append, mem_if_singleton]

/-- Every detected order block copies its band from the candle before the
impulse candle; that candle is a member of the sequence. -/
lemma detectOBs_band {candles : List Candle} {ob : OrderBlock}
    (h : ob ∈ detectOBs candles) :
    ∃ c ∈ candles, ob.top = c.high ∧ ob.bottom = c.low := by
  rcases mem_detectOBs.mp h with ⟨i, h1, h2, h3⟩
  have hc : getC candles (i - 1) ∈ candles := getC_mem (by omega)
  rcases mem_obAt.mp h3 with ⟨_, rfl⟩ | ⟨_, rfl⟩ <;> exact ⟨_, hc, rfl, rfl⟩

lemma mem_findPivots {k : PivotKind} {candles : List Candle} {len : Nat} {p : Pivot} :
    p ∈ findPivots k candles len ↔
      ∃ i, len ≤ i ∧ i + len < candles.length ∧
        isPivotAt k candles len i = true ∧ p = mkPivot k candles i := by
  simp only [findPivots, List.mem_filterMap, List.mem_range'_1]
  constructor
  · rintro ⟨i, ⟨h1, h2⟩, h3⟩
    rw [ite_eq_iff] at h3
    rcases h3 with ⟨hp, hs⟩ | ⟨_, hs⟩
    · exact ⟨i, h1, by omega, hp, (Option.some_inj.mp hs).symm⟩
    · exact absurd hs (by simp)
  · rintro ⟨i, h1, h2, hp, rfl⟩
    exact ⟨i, ⟨h1, by omega⟩, by rw [if_pos hp]⟩

lemma isPivotAt_hi_iff {candles : List Candle} {len i : Nat} :
    isPivotAt PivotKind.hi candles len i = true ↔
      ∀ j ∈ List.range' 1 len,
        (getC candles (i - j)).high < (getC candles i).high ∧
          (getC candles (i + j)).high < (getC candles i).high := by
  simp [isPivotAt, List.all_eq_true]

lemma isPivotAt_lo_iff {candles : List Candle} {len i : Nat} :
    isPivotAt PivotKind.lo candles len i = true ↔
      ∀ j ∈ List.range' 1 len,
        (getC candles i).low < (getC candles (i - j)).low ∧
          (getC candles i).low < (getC candles (i + j)).low := by
  simp [isPivotAt, List.all_eq_true]

lemma mkPivot_idx (k : PivotKind) (candles : List Candle) (i : Nat) :
    (mkPivot k candles i).idx = i := rfl

/-! ### Claim C1: signal decision checks bullish first -/

/-- C1: for every bar sequence and config, both engine variants decide the
signal by checking bullish first — BUY when the bull score meets the
configured minimum, else SELL when the bear score meets it, else NEUTRAL;
consequently whenever both scores meet the minimum the result is BUY. -/
theorem signal_decision_bull_first (candles : List Candle) (config : Config) :
    ((analyzePriceData candles config).signal =
      if ((analyzePriceData candles config).bullScore : ℚ) ≥ config.minConfluence then Signal.BUY
      else if ((analyzePriceData candles config).bearScore : ℚ) ≥ config.minConfluence then
        Signal.SELL
      else Signal.NEUTRAL) ∧
    ((analyzePriceDataBase candles config).signal =
      if ((analyzePriceDataBase candles config).bullScore : ℚ) ≥ config.minConfluence then
        Signal.BUY
      else if ((analyzePriceDataBase candles config).bearScore : ℚ) ≥ config.minConfluence then
        Signal.SELL
      else Signal.NEUTRAL) ∧
    (((analyzePriceData candles config).bullScore : ℚ) ≥ config.minConfluence →
      ((analyzePriceData candles config).bearScore : ℚ) ≥ config.minConfluence →
      (analyzePriceData candles config).signal = Signal.BUY) := by
  refine ⟨?_, rfl, ?_⟩
  · rw [apd_signal, apd_bullScore, apd_bearScore]
  · intro h1 _
    rw [apd_bullScore] at h1
    rw [apd_signal, if_pos h1]

/-- Witness for C1 at a concrete tie: on `tieCandles` with minimum 1 both
scores equal the minimum and the signal is BUY. -/
theorem signal_decision_bull_first_witness :
    ((analyzePriceData tieCandles tieConfig).bullScore : ℚ) ≥ tieConfig.minConfluence ∧
    ((analyzePriceData tieCandles tieConfig).bearScore : ℚ) ≥ tieConfig.minConfluence ∧
    (analyzePriceData tieCandles tieConfig).signal = Signal.BUY := by
  have h1 : ((analyzePriceData tieCandles tieConfig).bullScore : ℚ) ≥ tieConfig.minConfluence := by
    have : (analyzePriceData tieCandles tieConfig).bullScore = 1 := by decide
    rw [this]; norm_num [tieConfig]
  have h2 : ((analyzePriceData tieCandles tieConfig).bearScore : ℚ) ≥ tieConfig.minConfluence := by
    have : (analyzePriceData tieCandles tieConfig).bearScore = 1 := by decide
    rw [this]; norm_num [tieConfig]
  exact ⟨h1, h2, (signal_decision_bull_first tieCandles tieConfig).2.2 h1 h2⟩

/-! ### Claim C9: determinism -/

/-- C9: the engine is deterministic — equal bar sequences and equal configs
produce equal results in every field, for both variants. -/
theorem engine_deterministic (candlesA candlesB : List Candle) (cfgA cfgB : Config)
    (hc : candlesA = candlesB) (hk : cfgA = cfgB) :
    analyzePriceData candlesA cfgA = analyzePriceData candlesB cfgB ∧
      analyzePriceDataBase candlesA cfgA = analyzePriceDataBase candlesB cfgB := by
  subst hc; subst hk; exact ⟨rfl, rfl⟩

/-- Witness for C9 at a concrete input. -/
theorem engine_deterministic_witness :
    tieCandles = tieCandles ∧ tieConfig = tieConfig ∧
      analyzePriceData tieCandles tieConfig = analyzePriceData tieCandles tieConfig ∧
      analyzePriceDataBase tieCandles tieConfig = analyzePriceDataBase tieCandles tieConfig :=
  ⟨rfl, rfl, (engine_deterministic tieCandles tieCandles tieConfig tieConfig rfl rfl).1,
    (engine_deterministic tieCandles tieCandles tieConfig tieConfig rfl rfl).2⟩

/-! ### Claim C6: short sequences yield empty detector output -/

/-- C6: sequences shorter than 3 bars yield no imbalance zones, shorter
than 2 yield no impulse blocks, and shorter than 2L+1 yield no pivots of
either kind for half-window L. -/
theorem short_input_empty (candles : List Candle) (L : Nat) :
    (candles.length < 3 → detectFVGs candles = []) ∧
    (candles.length < 2 → detectOBs candles = []) ∧
    (candles.length < 2 * L + 1 →
      findPivots PivotKind.hi candles L = [] ∧ findPivots PivotKind.lo candles L = []) := by
  refine ⟨?_, ?_, ?_⟩
  · intro h
    have h2 : candles.length - 2 = 0 := by omega
    simp [detectFVGs, h2]
  · intro h
    have h2 : candles.length - 1 = 0 := by omega
    simp [detectOBs, h2]
  · intro h
    have h2 : candles.length - 2 * L = 0 := by omega
    constructor <;> simp [findPivots, h2]

/-- Witness for C6 on the empty sequence with L = 1. -/
theorem short_input_empty_witness :
    (([] : List Candle).length < 3 ∧ detectFVGs [] = []) ∧
    (([] : List Candle).length < 2 ∧ detectOBs [] = []) ∧
    (([] : List Candle).length < 2 * 1 + 1 ∧
      findPivots PivotKind.hi [] 1 = [] ∧ findPivots PivotKind.lo [] 1 = []) :=
  ⟨⟨by decide, (short_input_empty [] 1).1 (by decide)⟩,
    ⟨by decide, (short_input_empty [] 1).2.1 (by decide)⟩,
    ⟨by decide, (short_input_empty [] 1).2.2 (by decide)⟩⟩

/-! ### Claim C3: the empty sequence yields a neutral, empty result -/

lemma findPivots_nil (k : PivotKind) (L : Nat) : findPivots k [] L = [] := by
  have h2 : ([] : List Candle).length - 2 * L = 0 := by simp
  simp [findPivots, h2]

lemma structureEventsOf_nil (config : Config) : structureEventsOf [] config = [] := by
  simp [structureEventsOf, highPivotsOf, lowPivotsOf, findPivots_nil, bosEvents]

lemma bullScoreOf_nil (config : Config) : bullScoreOf [] config = 0 := by
  simp [bullScoreOf, inBullOBOf, currentBullOBOf, inBullFVGOf, bullBOSOf, bullSweepOf,
    structureEventsOf_nil, lowPivotsOf, findPivots_nil, bullSweepFlag, detectOBs, detectFVGs]

lemma bearScoreOf_nil (config : Config) : bearScoreOf [] config = 0 := by
  simp [bearScoreOf, inBearOBOf, currentBearOBOf, inBearFVGOf, bearBOSOf, bearSweepOf,
    structureEventsOf_nil, highPivotsOf, findPivots_nil, bearSweepFlag, detectOBs, detectFVGs]

/-- C3: on the empty bar sequence, with any config whose minimum confluence
is at least 1, the extended engine returns empty zone, imbalance and
structure collections, zero scores, a NEUTRAL signal, and no trade-plan
fields. -/
theorem empty_input_neutral (config : Config) (h : 1 ≤ config.minConfluence) :
    (analyzePriceData [] config).fvgs = [] ∧
    (analyzePriceData [] config).orderBlocks = [] ∧
    (analyzePriceData [] config).structureEvents = [] ∧
    (analyzePriceData [] config).bullScore = 0 ∧
    (analyzePriceData [] config).bearScore = 0 ∧
    (analyzePriceData [] config).signal = Signal.NEUTRAL ∧
    (analyzePriceData [] config).entryPrice = none ∧
    (analyzePriceData [] config).slPrice = none ∧
    (analyzePriceData [] config).tpPrice = none ∧
    (analyzePriceData [] config).rrRatio = none ∧
    (analyzePriceData [] config).pnlEstimate = none := by
  have hb : ¬ ((bullScoreOf [] config : ℚ) ≥ config.minConfluence) := by
    rw [bullScoreOf_nil]
    push_cast
    linarith
  have hr : ¬ ((bearScoreOf [] config : ℚ) ≥ config.minConfluence) := by
    rw [bearScoreOf_nil]
    push_cast
    linarith
  obtain ⟨hs, he, hsl, htp, hrr, hpnl⟩ := apd_neutral_fields [] config hb hr
  refine ⟨?_, ?_, ?_, ?_, ?_, hs, he, hsl, htp, hrr, hpnl⟩
  · rw [apd_fvgs]; rfl
  · rw [apd_orderBlocks]; rfl
  · rw [apd_structureEvents]; exact structureEventsOf_nil config
  · rw [apd_bullScore]; exact bullScoreOf_nil config
  · rw [apd_bearScore]; exact bearScoreOf_nil config

/-- Witness for C3 at the concrete config `tieConfig` (minimum 1). -/
theorem empty_input_neutral_witness :
    1 ≤ tieConfig.minConfluence ∧
    ((analyzePriceData [] tieConfig).fvgs = [] ∧
      (analyzePriceData [] tieConfig).orderBlocks = [] ∧
      (analyzePriceData [] tieConfig).structureEvents = [] ∧
      (analyzePriceData [] tieConfig).bullScore = 0 ∧
      (analyzePriceData [] tieConfig).bearScore = 0 ∧
      (analyzePriceData [] tieConfig).signal = Signal.NEUTRAL ∧
      (analyzePriceData [] tieConfig).entryPrice = none ∧
      (analyzePriceData [] tieConfig).slPrice = none ∧
      (analyzePriceData [] tieConfig).tpPrice = none ∧
      (analyzePriceData [] tieConfig).rrRatio = none ∧
      (analyzePriceData [] tieConfig).pnlEstimate = none) :=
  ⟨by norm_num [tieConfig], empty_input_neutral tieConfig (by norm_num [tieConfig])⟩

/-! ### Claim C4: can both imbalance checks fire at one index? -/

lemma fvg_fires_exclusive (c2 c1 c0 : Candle) :
    (bullFVGfire c2 c1 c0 && bearFVGfire c2 c1 c0) = false := by
  by_cases h : c1.opn < c1.close
  · have hd : decide (c1.close < c1.opn) = false := decide_eq_false (not_lt.2 h.le)
    simp [bearFVGfire, hd]
  · have hd : decide (c1.close > c1.opn) = false := decide_eq_false h
    simp [bullFVGfire, hd]

/-- C4 counterexample: contrary to the claim, no bar sequence makes the
bullish and the bearish imbalance check fire at the same index — the middle
bar would have to close both above and below its open. -/
theorem fvg_checks_never_both_fire : noDoubleFVG := by
  intro candles i h
  have hx := fvg_fires_exclusive (getC candles (i - 2)) (getC candles (i - 1)) (getC candles i)
  rw [h.1, h.2] at hx
  exact absurd hx (by simp)

/-- C4 (amended): the two imbalance checks are mutually exclusive by
construction, and at most one imbalance zone is emitted per bar triple. -/
theorem fvg_checks_mutually_exclusive (c2 c1 c0 : Candle) (candles : List Candle) (i : Nat) :
    (bullFVGfire c2 c1 c0 && bearFVGfire c2 c1 c0) = false ∧
      (fvgAt candles i).length ≤ 1 := by
  refine ⟨fvg_fires_exclusive c2 c1 c0, ?_⟩
  cases hb : bullFVGfire (getC candles (i - 2)) (getC candles (i - 1)) (getC candles i)
  · cases hbe : bearFVGfire (getC candles (i - 2)) (getC candles (i - 1)) (getC candles i) <;>
      simp [fvgAt, hb, hbe]
  · have hbe : bearFVGfire (getC candles (i - 2)) (getC candles (i - 1)) (getC candles i) = false := by
      have hx := fvg_fires_exclusive (getC candles (i - 2)) (getC candles (i - 1)) (getC candles i)
      rwa [hb, Bool.true_and] at hx
    simp [fvgAt, hb, hbe]

/-! ### Claim C5: strict windowed pivot characterisation -/

/-- C5: for L ≥ 1, index i is reported as a high pivot iff it lies in
[L, length−L−1] and its high strictly dominates the window on both sides
(symmetrically for low pivots); consequently two adjacent bars with equal
highs can never both-sidedly dominate, so no flat plateau index is ever a
high pivot. -/
theorem pivot_strict_characterisation (candles : List Candle) (L : Nat) (hL : 1 ≤ L) :
    (∀ i : Nat,
      (∃ p ∈ findPivots PivotKind.hi candles L, p.idx = i) ↔
        (L ≤ i ∧ i + L < candles.length ∧ ∀ j ∈ List.range' 1 L,
          (getC candles (i - j)).high < (getC candles i).high ∧
            (getC candles (i + j)).high < (getC candles i).high)) ∧
    (∀ i : Nat,
      (∃ p ∈ findPivots PivotKind.lo candles L, p.idx = i) ↔
        (L ≤ i ∧ i + L < candles.length ∧ ∀ j ∈ List.range' 1 L,
          (getC candles i).low < (getC candles (i - j)).low ∧
            (getC candles i).low < (getC candles (i + j)).low)) ∧
    (∀ i : Nat, (getC candles i).high = (getC candles (i + 1)).high →
      ∀ p ∈ findPivots PivotKind.hi candles L, p.idx ≠ i ∧ p.idx ≠ i + 1) := by
  have hone : (1 : Nat) ∈ List.range' 1 L := by
    rw [List.mem_range'_1]
    omega
  refine ⟨?_, ?_, ?_⟩
  · intro i
    constructor
    · rintro ⟨p, hp, hidx⟩
      rcases mem_findPivots.mp hp with ⟨i', h1, h2, hpv, rfl⟩
      rw [mkPivot_idx] at hidx
      subst hidx
      exact ⟨h1, h2, isPivotAt_hi_iff.mp hpv⟩
    · rintro ⟨h1, h2, h3⟩
      exact ⟨mkPivot PivotKind.hi candles i,
        mem_findPivots.mpr ⟨i, h1, h2, isPivotAt_hi_iff.mpr h3, rfl⟩,
        mkPivot_idx _ _ _⟩
  · intro i
    constructor
    · rintro ⟨p, hp, hidx⟩
      rcases mem_findPivots.mp hp with ⟨i', h1, h2, hpv, rfl⟩
      rw [mkPivot_idx] at hidx
      subst hidx
      exact ⟨h1, h2, isPivotAt_lo_iff.mp hpv⟩
    · rintro ⟨h1, h2, h3⟩
      exact ⟨mkPivot PivotKind.lo candles i,
        mem_findPivots.mpr ⟨i, h1, h2, isPivotAt_lo_iff.mpr h3, rfl⟩,
        mkPivot_idx _ _ _⟩
  · intro i heq p hp
    rcases mem_findPivots.mp hp with ⟨i', h1, h2, hpv, rfl⟩
    rw [mkPivot_idx]
    constructor
    · rintro rfl
      have := ((isPivotAt_hi_iff.mp hpv) 1 hone).2
      rw [← heq] at this
      exact lt_irrefl _ this
    · rintro rfl
      have := ((isPivotAt_hi_iff.mp hpv) 1 hone).1
      rw [Nat.add_sub_cancel, heq] at this
      exact lt_irrefl _ this

/-- Witness for C5: on `tieCandles` with L = 1 the characterisation reports
a high pivot at index 1. -/
theorem pivot_strict_characterisation_witness :
    (1 : Nat) ≤ 1 ∧ ∃ p ∈ findPivots PivotKind.hi tieCandles 1, p.idx = 1 :=
  ⟨by decide,
    ((pivot_strict_characterisation tieCandles 1 (by decide)).1 1).mpr (by decide)⟩

/-! ### Claim C10: same-kind pivots are more than L apart -/

/-- C10: any two distinct same-kind pivots found with half-window L are
separated by strictly more than L bars, and each pivot list is strictly
increasing in index. -/
theorem pivot_separation (candles : List Candle) (L : Nat) (_hL : 1 ≤ L) (k : PivotKind) :
    (∀ p ∈ findPivots k candles L, ∀ q ∈ findPivots k candles L,
      p.idx < q.idx → p.idx + L < q.idx) ∧
    (findPivots k candles L).Pairwise (fun p q => p.idx < q.idx) := by
  constructor
  · intro p hp q hq hlt
    by_contra hle
    rcases mem_findPivots.mp hp with ⟨i, _, _, hpv, rfl⟩
    rcases mem_findPivots.mp hq with ⟨i', _, _, hqv, rfl⟩
    rw [mkPivot_idx] at hlt hle
    rw [mkPivot_idx] at hlt hle
    have hj : (i' - i) ∈ List.range' 1 L := by
      rw [List.mem_range'_1]
      omega
    have hup : i + (i' - i) = i' := by omega
    have hdown : i' - (i' - i) = i := by omega
    cases k with
    | hi =>
      have h1 := ((isPivotAt_hi_iff.mp hpv) _ hj).2
      rw [hup] at h1
      have h2 := ((isPivotAt_hi_iff.mp hqv) _ hj).1
      rw [hdown] at h2
      exact absurd h2 (not_lt.2 h1.le)
    | lo =>
      have h1 := ((isPivotAt_lo_iff.mp hpv) _ hj).2
      rw [hup] at h1
      have h2 := ((isPivotAt_lo_iff.mp hqv) _ hj).1
      rw [hdown] at h2
      exact absurd h2 (not_lt.2 h1.le)
  · refine List.Pairwise.filterMap _ ?_ (List.pairwise_lt_range' L (candles.length - 2 * L))
    intro a a' hlt b hb b' hb'
    rw [Option.mem_def] at hb hb'
    have hba : b.idx = a := by
      by_cases h : isPivotAt k candles L a = true
      · rw [if_pos h] at hb
        rw [← Option.some_inj.mp hb]
        exact mkPivot_idx _ _ _
      · rw [if_neg h] at hb
        exact absurd hb (by simp)
    have hba' : b'.idx = a' := by
      by_cases h : isPivotAt k candles L a' = true
      · rw [if_pos h] at hb'
        rw [← Option.some_inj.mp hb']
        exact mkPivot_idx _ _ _
      · rw [if_neg h] at hb'
        exact absurd hb' (by simp)
    rw [hba, hba']
    exact hlt

/-- Witness for C10: the two high pivots of `tieCandles` at indices 1 and 3
are more than L = 1 apart. -/
theorem pivot_separation_witness :
    (⟨50, 1, 1⟩ : Pivot) ∈ findPivots PivotKind.hi tieCandles 1 ∧
    (⟨70, 3, 3⟩ : Pivot) ∈ findPivots PivotKind.hi tieCandles 1 ∧
    (⟨50, 1, 1⟩ : Pivot).idx < (⟨70, 3, 3⟩ : Pivot).idx ∧
    (⟨50, 1, 1⟩ : Pivot).idx + 1 < (⟨70, 3, 3⟩ : Pivot).idx :=
  ⟨by decide, by decide, by decide,
    (pivot_separation tieCandles 1 (by decide) PivotKind.hi).1 ⟨50, 1, 1⟩ (by decide)
      ⟨70, 3, 3⟩ (by decide) (by decide)⟩

/-! ### Claim C7: every emitted zone has top ≥ bottom -/

/-- C7: when every bar satisfies high ≥ low, every imbalance zone and every
impulse block in the result has top ≥ bottom (imbalance zones need no
well-formedness at all: their gap condition forces bottom < top). -/
theorem zones_band_ordered (candles : List Candle) (hwf : WellFormedHL candles) :
    (∀ f ∈ detectFVGs candles, f.bottom ≤ f.top) ∧
    (∀ ob ∈ detectOBs candles, ob.bottom ≤ ob.top) := by
  constructor
  · intro f hf
    rcases mem_detectFVGs.mp hf with ⟨i, _, _, hmem⟩
    rcases mem_fvgAt.mp hmem with ⟨hfire, rfl⟩ | ⟨hfire, rfl⟩
    · simp only [bullFVGfire, Bool.and_eq_true, decide_eq_true_eq] at hfire
      exact hfire.1.1.le
    · simp only [bearFVGfire, Bool.and_eq_true, decide_eq_true_eq] at hfire
      exact hfire.1.1.le
  · intro ob hob
    rcases detectOBs_band hob with ⟨c, hc, htop, hbot⟩
    rw [htop, hbot]
    exact hwf c hc

lemma detectFVGs_fvgCandles :
    detectFVGs fvgCandles =
      [{ dir := Direction.bullish, top := 5, bottom := 1, index := 1,
         startTime := 1, isValid := true }] := by
  norm_num [detectFVGs, fvgAt, getC, bullFVGfire, bearFVGfire, List.range', fvgCandles]

/-- Witness for C7 on the concrete zone emitted for `fvgCandles`. -/
theorem zones_band_ordered_witness :
    WellFormedHL fvgCandles ∧
    ({ dir := Direction.bullish, top := 5, bottom := 1, index := 1,
       startTime := 1, isValid := true } : FVG).bottom ≤
      ({ dir := Direction.bullish, top := 5, bottom := 1, index := 1,
         startTime := 1, isValid := true } : FVG).top :=
  ⟨by unfold WellFormedHL; decide,
    (zones_band_ordered fvgCandles (by unfold WellFormedHL; decide)).1 _
      (by rw [detectFVGs_fvgCandles]; exact List.mem_singleton.mpr rfl)⟩

/-! ### Claim C8: the base variant refines the extended variant -/

lemma inBullOBBase_eq (candles : List Candle) :
    inBullOBBaseOf candles = inBullOBOf candles := by
  rw [inBullOBBaseOf, inBullOBOf, currentBullOBOf, any_eq_find?_isSome]

lemma inBearOBBase_eq (candles : List Candle) :
    inBearOBBaseOf candles = inBearOBOf candles := by
  rw [inBearOBBaseOf, inBearOBOf, currentBearOBOf, any_eq_find?_isSome]

lemma bullScoreBase_eq (candles : List Candle) (config : Config) :
    bullScoreBaseOf candles config =
      bullScoreOf candles config - (bullSweepOf candles config).toNat := by
  rw [bullScoreBaseOf, bullScoreOf, inBullOBBase_eq]
  omega

lemma bearScoreBase_eq (candles : List Candle) (config : Config) :
    bearScoreBaseOf candles config =
      bearScoreOf candles config - (bearSweepOf candles config).toNat := by
  rw [bearScoreBaseOf, bearScoreOf, inBearOBBase_eq]
  omega

lemma apdBase_signal (candles : List Candle) (config : Config) :
    (analyzePriceDataBase candles config).signal =
      (if (bullScoreBaseOf candles config : ℚ) ≥ config.minConfluence then Signal.BUY
       else if (bearScoreBaseOf candles config : ℚ) ≥ config.minConfluence then Signal.SELL
       else Signal.NEUTRAL) := rfl

/-- C8: on every input the base and extended engines produce identical
imbalance-zone, impulse-block and structure-event lists; the base scores
equal the extended scores minus the sweep contribution; and when both sweep
flags are false the two variants' signals agree. -/
theorem base_refines_extended (candles : List Candle) (config : Config) :
    (analyzePriceDataBase candles config).fvgs = (analyzePriceData candles config).fvgs ∧
    (analyzePriceDataBase candles config).orderBlocks =
      (analyzePriceData candles config).orderBlocks ∧
    (analyzePriceDataBase candles config).structureEvents =
      (analyzePriceData candles config).structureEvents ∧
    (analyzePriceDataBase candles config).bullScore =
      (analyzePriceData candles config).bullScore - (bullSweepOf candles config).toNat ∧
    (analyzePriceDataBase candles config).bearScore =
      (analyzePriceData candles config).bearScore - (bearSweepOf candles config).toNat ∧
    (bullSweepOf candles config = false → bearSweepOf candles config = false →
      (analyzePriceDataBase candles config).signal = (analyzePriceData candles config).signal) := by
  refine ⟨?_, ?_, ?_, ?_, ?_, ?_⟩
  · rw [apd_fvgs]; rfl
  · rw [apd_orderBlocks]; rfl
  · rw [apd_structureEvents]; rfl
  · rw [apd_bullScore]
    exact bullScoreBase_eq candles config
  · rw [apd_bearScore]
    exact bearScoreBase_eq candles config
  · intro h1 h2
    have e1 : bullScoreBaseOf candles config = bullScoreOf candles config := by
      rw [bullScoreBase_eq, h1]
      simp
    have e2 : bearScoreBaseOf candles config = bearScoreOf candles config := by
      rw [bearScoreBase_eq, h2]
      simp
    rw [apd_signal, apdBase_signal, e1, e2]

/-- Witness for C8 at `tieCandles`, where both sweep flags are false. -/
theorem base_refines_extended_witness :
    bullSweepOf tieCandles tieConfig = false ∧ bearSweepOf tieCandles tieConfig = false ∧
      (analyzePriceDataBase tieCandles tieConfig).signal =
        (analyzePriceData tieCandles tieConfig).signal :=
  ⟨by decide, by decide,
    (base_refines_extended tieCandles tieConfig).2.2.2.2.2 (by decide) (by decide)⟩

/-! ### Claim C2: trade-plan sign invariants -/

lemma bullScore_pos_ne_nil {candles : List Candle} {config : Config}
    (h : 1 ≤ bullScoreOf candles config) : candles ≠ [] := by
  intro hnil
  subst hnil
  rw [bullScoreOf_nil] at h
  omega

lemma bearScore_pos_ne_nil {candles : List Candle} {config : Config}
    (h : 1 ≤ bearScoreOf candles config) : candles ≠ [] := by
  intro hnil
  subst hnil
  rw [bearScoreOf_nil] at h
  omega

lemma lastCandle_mem {candles : List Candle} (h : candles ≠ []) :
    lastCandleOf candles ∈ candles := by
  have hpos : 0 < candles.length := List.length_pos.mpr h
  exact getC_mem (by omega)

/-- C2 counterexample: on `planCandles` with a zero stop-loss buffer the
engine fires BUY with entry = stop = target = 2 and estimated return 0,
violating the claimed strict inequalities target > entry > stop and
return > 0. -/
theorem trade_plan_strictness_counterexample :
    (analyzePriceData planCandles tieConfig).signal = Signal.BUY ∧
    (analyzePriceData planCandles tieConfig).entryPrice = some 2 ∧
    (analyzePriceData planCandles tieConfig).slPrice = some 2 ∧
    (analyzePriceData planCandles tieConfig).tpPrice = some 2 ∧
    (analyzePriceData planCandles tieConfig).pnlEstimate = some 0 := by
  have h1 : bullScoreOf planCandles tieConfig = 1 := by decide
  have hge : (bullScoreOf planCandles tieConfig : ℚ) ≥ tieConfig.minConfluence := by
    rw [h1]
    norm_num [tieConfig]
  have hlast : lastCandleOf planCandles = ⟨4, 2, 2, 2, 2, 0⟩ := by decide
  have hob : currentBullOBOf planCandles = none := by decide
  have hbase : buyBaseSLOf planCandles = 2 := by
    simp only [buyBaseSLOf, hob, hlast]
  have hsl2 : buySLOf planCandles tieConfig = 2 := by
    rw [buySLOf, hbase]
    norm_num [tieConfig]
  have htp2 : buyTPOf planCandles tieConfig = 2 := by
    rw [buyTPOf, hsl2, hlast]
    norm_num [jsAbs, tieConfig]
  obtain ⟨hE, hS, hT, hP⟩ := apd_buy_fields planCandles tieConfig hge
  refine ⟨(signal_BUY_iff planCandles tieConfig).mpr hge, ?_, ?_, ?_, ?_⟩
  · rw [hE, hlast]
  · rw [hS, hsl2]
  · rw [hT, htp2]
  · rw [hP, htp2, hlast]
    norm_num

/-- C2 (amended): for bars with positive ordered prices
(0 < low ≤ close ≤ high) and a config with strictly positive stop-loss
buffer, positive risk-reward multiple and minimum confluence ≥ 1, a BUY
signal yields target > entry > stop with positive estimated return, and a
SELL signal yields target < entry < stop with positive estimated return. -/
theorem trade_plan_sign_invariants (candles : List Candle) (config : Config)
    (hwf : WellFormedPos candles) (hbuf : 0 < config.slBuffer)
    (hrr : 0 < config.rrRatio) (hmc : 1 ≤ config.minConfluence) :
    ((analyzePriceData candles config).signal = Signal.BUY →
      ∃ e s t pnl,
        (analyzePriceData candles config).entryPrice = some e ∧
        (analyzePriceData candles config).slPrice = some s ∧
        (analyzePriceData candles config).tpPrice = some t ∧
        (analyzePriceData candles config).pnlEstimate = some pnl ∧
        s < e ∧ e < t ∧ 0 < pnl) ∧
    ((analyzePriceData candles config).signal = Signal.SELL →
      ∃ e s t pnl,
        (analyzePriceData candles config).entryPrice = some e ∧
        (analyzePriceData candles config).slPrice = some s ∧
        (analyzePriceData candles config).tpPrice = some t ∧
        (analyzePriceData candles config).pnlEstimate = some pnl ∧
        t < e ∧ e < s ∧ 0 < pnl) := by
  constructor
  · intro hsig
    have hge := (signal_BUY_iff candles config).mp hsig
    have hscore : 1 ≤ bullScoreOf candles config := by
      exact_mod_cast le_trans hmc hge
    have hne : candles ≠ [] := bullScore_pos_ne_nil hscore
    obtain ⟨hlow_pos, hlc_le, hce_le⟩ := hwf _ (lastCandle_mem hne)
    have hepos : 0 < (lastCandleOf candles).close := lt_of_lt_of_le hlow_pos hlc_le
    have hbase : 0 < buyBaseSLOf candles ∧
        buyBaseSLOf candles ≤ (lastCandleOf candles).close := by
      cases hob : currentBullOBOf candles with
      | none =>
        simp only [buyBaseSLOf, hob]
        exact ⟨hlow_pos, hlc_le⟩
      | some ob =>
        rw [currentBullOBOf] at hob
        have hpred := List.find?_some hob
        simp only [bullOBpred, Bool.and_eq_true, decide_eq_true_eq] at hpred
        have hmem := List.mem_of_find?_eq_some hob
        rcases detectOBs_band hmem with ⟨c, hc, _, hbot⟩
        obtain ⟨hclow, _, _⟩ := hwf c hc
        simp only [buyBaseSLOf, currentBullOBOf, hob]
        rw [hbot]
        exact ⟨hclow, hbot ▸ hpred.2⟩
    obtain ⟨hb_pos, hb_le⟩ := hbase
    have hsl_lt : buySLOf candles config < (lastCandleOf candles).close := by
      rw [buySLOf]
      calc buyBaseSLOf candles * (1 - config.slBuffer / 100) <
            buyBaseSLOf candles * 1 := by
            apply mul_lt_mul_of_pos_left _ hb_pos
            linarith
        _ = buyBaseSLOf candles := mul_one _
        _ ≤ (lastCandleOf candles).close := hb_le
    have hrisk_pos : 0 < (lastCandleOf candles).close - buySLOf candles config := by
      linarith
    have hrisk : jsAbs ((lastCandleOf candles).close - buySLOf candles config) =
        (lastCandleOf candles).close - buySLOf candles config := by
      rw [jsAbs, if_neg]
      linarith
    have htp_gt : (lastCandleOf candles).close < buyTPOf candles config := by
      rw [buyTPOf, hrisk]
      have := mul_pos hrisk_pos hrr
      linarith
    obtain ⟨hE, hS, hT, hP⟩ := apd_buy_fields candles config hge
    refine ⟨(lastCandleOf candles).close, buySLOf candles config,
      buyTPOf candles config, _, hE, hS, hT, hP, hsl_lt, htp_gt, ?_⟩
    have hnum : 0 < buyTPOf candles config - (lastCandleOf candles).close := by
      linarith
    exact mul_pos (div_pos hnum hepos) (by norm_num)
  · intro hsig
    obtain ⟨hnb, hge⟩ := (signal_SELL_iff candles config).mp hsig
    have hscore : 1 ≤ bearScoreOf candles config := by
      exact_mod_cast le_trans hmc hge
    have hne : candles ≠ [] := bearScore_pos_ne_nil hscore
    obtain ⟨hlow_pos, hlc_le, hce_le⟩ := hwf _ (lastCandle_mem hne)
    have hepos : 0 < (lastCandleOf candles).close := lt_of_lt_of_le hlow_pos hlc_le
    have hbase : 0 < sellBaseSLOf candles ∧
        (lastCandleOf candles).close ≤ sellBaseSLOf candles := by
      cases hob : currentBearOBOf candles with
      | none =>
        simp only [sellBaseSLOf, hob]
        exact ⟨lt_of_lt_of_le hlow_pos (le_trans hlc_le hce_le), hce_le⟩
      | some ob =>
        rw [currentBearOBOf] at hob
        have hpred := List.find?_some hob
        simp only [bearOBpred, Bool.and_eq_true, decide_eq_true_eq] at hpred
        have hmem := List.mem_of_find?_eq_some hob
        rcases detectOBs_band hmem with ⟨c, hc, htop, _⟩
        obtain ⟨hclow, hcl, hch⟩ := hwf c hc
        simp only [sellBaseSLOf, currentBearOBOf, hob]
        rw [htop]
        exact ⟨lt_of_lt_of_le hclow (le_trans hcl hch), htop ▸ hpred.2⟩
    obtain ⟨hb_pos, hb_le⟩ := hbase
    have hsl_gt : (lastCandleOf candles).close < sellSLOf candles config := by
      rw [sellSLOf]
      calc (lastCandleOf candles).close ≤ sellBaseSLOf candles := hb_le
        _ = sellBaseSLOf candles * 1 := (mul_one _).symm
        _ < sellBaseSLOf candles * (1 + config.slBuffer / 100) := by
            apply mul_lt_mul_of_pos_left _ hb_pos
            linarith
    have hrisk_pos : 0 < sellSLOf candles config - (lastCandleOf candles).close := by
      linarith
    have hrisk : jsAbs (sellSLOf candles config - (lastCandleOf candles).close) =
        sellSLOf candles config - (lastCandleOf candles).close := by
      rw [jsAbs, if_neg]
      linarith
    have htp_lt : sellTPOf candles config < (lastCandleOf candles).close := by
      rw [sellTPOf, hrisk]
      have := mul_pos hrisk_pos hrr
      linarith
    obtain ⟨hE, hS, hT, hP⟩ := apd_sell_fields candles config hnb hge
    refine ⟨(lastCandleOf candles).close, sellSLOf candles config,
      sellTPOf candles config, _, hE, hS, hT, hP, htp_lt, hsl_gt, ?_⟩
    have hnum : 0 < (lastCandleOf candles).close - sellTPOf candles config := by
      linarith
    exact mul_pos (div_pos hnum hepos) (by norm_num)

/-- Witness for the amended C2 on `planCandles` with a 5% buffer, where the
engine fires BUY. -/
theorem trade_plan_sign_invariants_witness :
    WellFormedPos planCandles ∧ 0 < posBufConfig.slBuffer ∧ 0 < posBufConfig.rrRatio ∧
    1 ≤ posBufConfig.minConfluence ∧
    ((analyzePriceData planCandles posBufConfig).signal = Signal.BUY →
      ∃ e s t pnl,
        (analyzePriceData planCandles posBufConfig).entryPrice = some e ∧
        (analyzePriceData planCandles posBufConfig).slPrice = some s ∧
        (analyzePriceData planCandles posBufConfig).tpPrice = some t ∧
        (analyzePriceData planCandles posBufConfig).pnlEstimate = some pnl ∧
        s < e ∧ e < t ∧ 0 < pnl) :=
  ⟨by unfold WellFormedPos; decide, by norm_num [posBufConfig], by norm_num [posBufConfig],
    by norm_num [posBufConfig],
    (trade_plan_sign_invariants planCandles posBufConfig (by unfold WellFormedPos; decide)
      (by norm_num [posBufConfig]) (by norm_num [posBufConfig])
      (by norm_num [posBufConfig])).1⟩
